import Mathlib

/-!
# Verification of the ipc-jsonrpc connection protocol engine

A shallow embedding, in Lean 4, of the Go package `jsonrpcipc`
(repository gnana997/ipc-jsonrpc): the JSON-RPC 2.0 message model
(`types.go`), the error taxonomy (`errors.go`), the middleware pipeline
(`middleware.go`), the line-delimited codec (`codec.go`), the
notification/broadcast manager (`notifications.go`), and the
per-connection read-dispatch-write loop (`connection.go`).

Go values of type `interface{}` holding decoded JSON are modelled by
`JsonValue`; a Go `nil` interface (field absent, or JSON `null`
decoded into `interface{}`) is modelled by `Option.none`.  Handlers
are modelled as pure functions threading an explicit observation log
(a `List String`) so that middleware execution order is provable; the
Go two-value return `(result interface{}, err error)` is the
`HandlerOutcome.ret` constructor and a runtime panic is
`HandlerOutcome.panic`.  The blocking read loop is modelled as a
function over a finite list of read events, each event being the
outcome of one `codec.ReadJSON` call.
-/

namespace JsonRpcIpc

/-- A decoded JSON value (Go: what `json.Unmarshal` stores in an
`interface{}`, with numbers restricted to integers, which suffices for
every claim under study). -/
inductive JsonValue where
  | null
  | bool (b : Bool)
  | num (n : Int)
  | str (s : String)
  | arr (elems : List JsonValue)
  | obj (fields : List (String × JsonValue))

/-- Look up a key in a JSON object value (used to state facts about the
`data` payload of errors; returns `none` on non-objects). -/
def JsonValue.lookup : JsonValue → String → Option JsonValue
  | .obj fields, k => fields.lookup k
  | _, _ => none

/-- `RPCError` from `types.go`: `{Code int; Message string; Data interface{}}`. -/
structure RPCError where
  code : Int
  message : String
  data : Option JsonValue

/-- Look up a key in an error's `data` payload. -/
def RPCError.dataLookup (e : RPCError) (k : String) : Option JsonValue :=
  match e.data with
  | some v => v.lookup k
  | none => none

/-- `Message` from `types.go`: the wire-classification union.  Go zero
values: `Method` and `JSONRPC` default to `""`; `ID`, `Result`,
`Params` are `nil` interfaces / `nil` slices when absent (here
`none`); `Error` is a nil pointer when absent. -/
structure Message where
  jsonrpc : String
  method : String
  params : Option JsonValue
  id : Option JsonValue
  result : Option JsonValue
  error : Option RPCError

/-- `Message.IsRequest` (types.go): `m.Method != "" && m.ID != nil`. -/
def Message.IsRequest (m : Message) : Bool :=
  m.method != "" && m.id.isSome

/-- `Message.IsNotification` (types.go): `m.Method != "" && m.ID == nil`. -/
def Message.IsNotification (m : Message) : Bool :=
  m.method != "" && m.id.isNone

/-- `Message.IsResponse` (types.go): `m.ID != nil && m.Method == ""`. -/
def Message.IsResponse (m : Message) : Bool :=
  m.id.isSome && m.method == ""

/-- `Message.IsErrorResponse` (types.go): `m.Error != nil && m.ID != nil`. -/
def Message.IsErrorResponse (m : Message) : Bool :=
  m.error.isSome && m.id.isSome

/-- `Message.IsSuccessResponse` (types.go):
`m.Result != nil && m.Error == nil && m.ID != nil`.
Note: the method field is not examined. -/
def Message.IsSuccessResponse (m : Message) : Bool :=
  m.result.isSome && m.error.isNone && m.id.isSome

/-! ## Error taxonomy (`errors.go`) -/

/-- Standard JSON-RPC error code constants from `errors.go`. -/
def ParseError : Int := -32700

def InvalidRequest : Int := -32600

def MethodNotFound : Int := -32601

def InvalidParams : Int := -32602

def InternalError : Int := -32603

def parseErrorMessage : String := "Parse error"

def invalidRequestMessage : String := "Invalid Request"

def methodNotFoundMessage : String := "Method not found"

def invalidParamsMessage : String := "Invalid params"

def internalErrorMessage : String := "Internal error"

/-- `NewError` (errors.go). -/
def NewError (code : Int) (message : String) (data : Option JsonValue) : RPCError :=
  ⟨code, message, data⟩

/-- `NewParseError` (errors.go). -/
def NewParseError (data : Option JsonValue) : RPCError :=
  NewError ParseError parseErrorMessage data

/-- `NewInvalidRequestError` (errors.go). -/
def NewInvalidRequestError (data : Option JsonValue) : RPCError :=
  NewError InvalidRequest invalidRequestMessage data

/-- `NewMethodNotFoundError` (errors.go): data is the map
`{"method": method}`. -/
def NewMethodNotFoundError (method : String) : RPCError :=
  NewError MethodNotFound methodNotFoundMessage (some (.obj [("method", .str method)]))

/-- `NewInvalidParamsError` (errors.go). -/
def NewInvalidParamsError (data : Option JsonValue) : RPCError :=
  NewError InvalidParams invalidParamsMessage data

/-- `NewInternalError` (errors.go). -/
def NewInternalError (data : Option JsonValue) : RPCError :=
  NewError InternalError internalErrorMessage data

/-- A Go `error` value as returned by a handler: either a `*RPCError`
(the type-switch case of `ToRPCError`) or any other error, of which
only the `Error()` description string matters downstream. -/
inductive GoError where
  | rpc (e : RPCError)
  | generic (msg : String)

/-- `ToRPCError` (errors.go): pass an `*RPCError` through unchanged,
wrap anything else as an InternalError whose data is `err.Error()`.
(The `err == nil` case never reaches this model: the caller in
`handleRequest` only converts non-nil errors.) -/
def ToRPCError : GoError → RPCError
  | .rpc e => e
  | .generic msg => NewInternalError (some (.str msg))

/-! ## Handlers and middleware (`handler.go`, `middleware.go`) -/

/-- The per-call context metadata that `handleRequest` attaches via
`WithMethod` / `WithRequestID` (the connection reference is omitted:
no claim under study observes it). -/
structure HandlerContext where
  method : String
  requestID : Option JsonValue

/-- The outcome of one Go handler invocation:
`ret result err` models the two-value return `(interface, error)`
(with `none` for a nil result / nil error), and `panic v` models a
runtime panic carrying value `v` propagating out of the call. -/
inductive HandlerOutcome where
  | ret (result : Option JsonValue) (err : Option GoError)
  | panic (v : JsonValue)

/-- `Handler` (handler.go): `Handle(ctx, params) (interface{}, error)`.
Effects are modelled by threading an explicit observation log. -/
def Handler : Type :=
  HandlerContext → Option JsonValue → List String → HandlerOutcome × List String

/-- `Middleware` (middleware.go): `func(Handler) Handler`. -/
def Middleware : Type := Handler → Handler

/-- `Chain` (middleware.go): `for i := len(middleware)-1; i >= 0; i--
{ handler = middleware[i](handler) }` — the fold from last to first,
so the first middleware in the list is the outermost wrapper. -/
def Chain (handler : Handler) (middleware : List Middleware) : Handler :=
  middleware.foldr (fun m h => m h) handler

/-- The identical last-to-first wrapping loop inlined in
`Connection.handleRequest` (connection.go lines 126-129). -/
def applyMiddleware (middleware : List Middleware) (handler : Handler) : Handler :=
  middleware.foldr (fun m h => m h) handler

/-- `RecoveryMiddleware` (middleware.go): a deferred `recover()` turns
a panic from the inner call into the return
`(nil, NewInternalError(map\x7b"panic": r, "method": method\x7d))`;
non-panicking outcomes pass through untouched. -/
def RecoveryMiddleware : Middleware :=
  fun next ctx params log =>
    match next ctx params log with
    | (.panic r, log') =>
        (.ret none (some (.rpc (NewInternalError
            (some (.obj [("panic", r), ("method", .str ctx.method)]))))), log')
    | other => other

/-- `HandlerRegistry` (handler.go): a map from method name to handler,
modelled as an association list with unique keys. -/
def HandlerRegistry : Type := List (String × Handler)

/-- `HandlerRegistry.Get` (handler.go): map lookup. -/
def HandlerRegistry.Get (r : HandlerRegistry) (method : String) : Option Handler :=
  r.lookup method

/-! ## Request/response messages (`types.go`, `connection.go`) -/

/-- `Request` (types.go). -/
structure Request where
  jsonrpc : String
  method : String
  params : Option JsonValue
  id : Option JsonValue

/-- `Response` (types.go): a success response; `Result` has no
`omitempty`, so a nil result is still serialized. -/
structure Response where
  jsonrpc : String
  result : Option JsonValue
  id : Option JsonValue

/-- `ErrorResponse` (types.go); `Error` is always set by `sendError`. -/
structure ErrorResponse where
  jsonrpc : String
  error : RPCError
  id : Option JsonValue

/-- One message written by the connection to its peer. -/
inductive OutMsg where
  | response (r : Response)
  | errorResponse (r : ErrorResponse)

/-- The `id` field of an outbound message. -/
def OutMsg.id : OutMsg → Option JsonValue
  | .response r => r.id
  | .errorResponse r => r.id

/-- The `jsonrpc` field of an outbound message. -/
def OutMsg.jsonrpc : OutMsg → String
  | .response r => r.jsonrpc
  | .errorResponse r => r.jsonrpc

/-- `Connection.sendResult` (connection.go): writes
`Response{JSONRPC: "2.0", Result: result, ID: id}`. -/
def sendResult (id : Option JsonValue) (result : Option JsonValue) : OutMsg :=
  .response ⟨"2.0", result, id⟩

/-- `Connection.sendError` (connection.go): writes
`ErrorResponse{JSONRPC: "2.0", Error: rpcErr, ID: id}`. -/
def sendError (id : Option JsonValue) (rpcErr : RPCError) : OutMsg :=
  .errorResponse ⟨"2.0", rpcErr, id⟩

/-- `Message.ToRequest` (types.go): errors unless `IsRequest`. -/
def Message.ToRequest (m : Message) : Except String Request :=
  if m.IsRequest then .ok ⟨m.jsonrpc, m.method, m.params, m.id⟩
  else .error "message is not a request"

/-- `Connection.handleRequest` (connection.go): look the method up in
the registry (miss ⟹ MethodNotFound, no handler runs); otherwise wrap
the handler with the middleware list, build the call context, invoke,
and send exactly one reply carrying the request id.  Returns the
written messages, the value of an uncaught panic if the wrapped
handler panicked (in Go it would unwind past `handleRequest`), and the
final observation log. -/
def handleRequest (registry : HandlerRegistry) (middleware : List Middleware)
    (req : Request) (log : List String) :
    List OutMsg × Option JsonValue × List String :=
  match registry.Get req.method with
  | none => ([sendError req.id (NewMethodNotFoundError req.method)], none, log)
  | some h =>
    let handler := applyMiddleware middleware h
    let ctx : HandlerContext := ⟨req.method, req.id⟩
    match handler ctx req.params log with
    | (.ret _ (some e), log') => ([sendError req.id (ToRPCError e)], none, log')
    | (.ret result none, log') => ([sendResult req.id result], none, log')
    | (.panic p, log') => ([], some p, log')

/-! ## The read loop (`codec.go` `ReadJSON`, `connection.go`
`handleNext` / `Serve`) -/

/-- A Go error value returned by `LineDelimitedCodec.ReadJSON`.  The
codec wraps every underlying failure with `fmt.Errorf` ("read error:
%w" in `ReadMessage`, "json unmarshal error: %w" in `ReadJSON`), and a
wrapped error is never `==`-equal to the `io.EOF` sentinel; `bareEOF`
is the sentinel itself, which the codec never actually returns. -/
inductive ReadErr where
  | bareEOF
  | wrapped (msg : String)

/-- One read event: the condition the stream presents when the loop
calls `codec.ReadJSON(&msg)` — the stream has ended, the next line is
not valid JSON, or a message was decoded. -/
inductive ReadEvent where
  | streamEOF
  | badJson (detail : String)
  | goodMsg (m : Message)

/-- The outcome `codec.ReadJSON` produces for each event (codec.go):
stream EOF surfaces as the *wrapped* error `"read error: EOF"` from
`ReadMessage`, and a JSON parse failure as the wrapped
`"json unmarshal error: ..."` — neither is the bare `io.EOF`. -/
def ReadJSON : ReadEvent → Except ReadErr Message
  | .streamEOF => .error (.wrapped "read error: EOF")
  | .badJson detail => .error (.wrapped ("json unmarshal error: " ++ detail))
  | .goodMsg m => .ok m

/-- What `Serve` does after one `handleNext` call: `exitEOF` iff
`handleNext` returned the bare `io.EOF` (Serve's `if err == io.EOF`
branch); `crash` iff an uncaught panic unwound; otherwise the loop
continues (both on nil and on any other error). -/
inductive LoopSignal where
  | exitEOF
  | cont
  | crash (v : JsonValue)

/-- `Connection.handleNext` (connection.go): read one message; on a
read error, return it directly if it `==` `io.EOF`, else send a
ParseError with `id = null` and data `err.Error()` and keep going; on
a decoded message, dispatch by classification (request →
`handleRequest`; notification → ignored; otherwise InvalidRequest). -/
def handleNext (registry : HandlerRegistry) (middleware : List Middleware)
    (ev : ReadEvent) (log : List String) :
    List OutMsg × LoopSignal × List String :=
  match ReadJSON ev with
  | .error .bareEOF => ([], .exitEOF, log)
  | .error (.wrapped s) =>
      ([sendError none (NewParseError (some (.str s)))], .cont, log)
  | .ok m =>
    if m.IsRequest then
      match m.ToRequest with
      | .ok req =>
        match handleRequest registry middleware req log with
        | (outs, none, log') => (outs, .cont, log')
        | (outs, some p, log') => (outs, .crash p, log')
      | .error e =>
        ([sendError m.id (NewInvalidRequestError (some (.str e)))], .cont, log)
    else if m.IsNotification then ([], .cont, log)
    else
      ([sendError m.id (NewInvalidRequestError
          (some (.str "message must have method field")))], .cont, log)

/-- `Connection.Serve` (connection.go), run over a finite list of read
events: the loop keeps calling `handleNext` and continues on every
error except the bare `io.EOF`; the returned list is everything the
connection wrote, in order. -/
def Serve (registry : HandlerRegistry) (middleware : List Middleware) :
    List ReadEvent → List String → List OutMsg
  | [], _ => []
  | ev :: rest, log =>
    match handleNext registry middleware ev log with
    | (outs, .exitEOF, _) => outs
    | (outs, .crash _, _) => outs
    | (outs, .cont, log') => outs ++ Serve registry middleware rest log'

/-! ## Byte-level framing (`codec.go` `ReadMessage`)

The buffered reader is modelled by the list of bytes remaining on the
stream; `bufio.Reader.ReadBytes('\n')` returns everything up to and
including the first `'\n'`, or everything remaining plus `io.EOF`
when no `'\n'` arrives before end-of-stream. -/

/-- The CRLF tolerance of `ReadMessage` (codec.go lines 473-476):
after the trailing `'\n'` is removed, remove one trailing `'\r'` too,
if present (`if len(line) > 0 && line[len(line)-1] == '\r'`). -/
def stripCR (line : List UInt8) : List UInt8 :=
  match line.getLast? with
  | some 13 => line.dropLast
  | _ => line

/-- `LineDelimitedCodec.ReadMessage` (codec.go): loop reading lines;
strip the trailing `'\n'` (here the `takeWhile` up to the first
newline), then one trailing `'\r'` if present; skip lines that are
then empty; on end-of-stream return buffered partial data as a final
message if non-empty, else fail with the wrapped read error.  Returns
the message bytes and the unconsumed rest of the stream. -/
def ReadMessage (s : List UInt8) : Except String (List UInt8 × List UInt8) :=
  match hrest : s.dropWhile (fun b => b ≠ 10) with
  | [] =>
      if s ≠ [] then .ok (s, []) else .error "read error: EOF"
  | _ :: rest =>
      let l2 := stripCR (s.takeWhile (fun b => b ≠ 10))
      if l2 = [] then ReadMessage rest else .ok (l2, rest)
termination_by s.length
decreasing_by
  have h1 : (s.dropWhile (fun b => b ≠ 10)).Sublist s := List.dropWhile_sublist _
  have h2 := h1.length_le
  rw [hrest] at h2
  simp only [List.length_cons] at h2
  omega

/-! ## Notifications and broadcast (`notifications.go`) -/

/-- `Notification` (types.go). -/
structure Notification where
  jsonrpc : String
  method : String
  params : Option JsonValue

/-- `NotificationManager` (notifications.go), reduced to the state its
`Send` observes: the closed flag, plus whether the codec write on the
underlying stream would succeed. -/
structure NotificationManager where
  closed : Bool
  writeOk : Bool

/-- `NotificationManager.Send` (notifications.go): refuse when closed;
otherwise construct `Notification{JSONRPC: "2.0", Method, Params}` and
`WriteJSON` it.  `.ok n` carries the notification written. -/
def NotificationManager.Send (nm : NotificationManager) (method : String)
    (params : Option JsonValue) : Except String Notification :=
  if nm.closed then .error "notification manager is closed"
  else if nm.writeOk then .ok ⟨"2.0", method, params⟩
  else .error "write error"

/-- `BroadcastManager.Broadcast` (notifications.go): range over the
membership snapshot, call `conn.Notify` (which forwards to the
connection's `NotificationManager.Send`, connection.go line 184) on
every member, count the sends whose error is nil, always continue the
iteration, and return the count. -/
def Broadcast (conns : List NotificationManager) (method : String)
    (params : Option JsonValue) : Nat :=
  conns.foldl
    (fun count nm =>
      match nm.Send method params with
      | .ok _ => count + 1
      | .error _ => count)
    0

/-! ## Instrumented handlers and middleware

These mirror the observation devices of the repository's own
middleware tests (`middleware_test.go` `TestChain_MultipleMiddleware`):
a middleware that appends `name-before` on the way in and `name-after`
on the way out, and a base handler that appends `H`. -/

/-- A middleware that records its pre-logic and post-logic in the
observation log; on a panic from the inner call the post-logic does
not run (the append after `next.Handle` is skipped while the panic
unwinds). -/
def namedMiddleware (name : String) : Middleware :=
  fun next ctx params log =>
    match next ctx params (log ++ [name ++ "-before"]) with
    | (.panic v, log1) => (.panic v, log1)
    | (.ret r e, log1) => (.ret r e, log1 ++ [name ++ "-after"])

/-- A base handler that records `H` and returns `v` with a nil error. -/
def loggingBase (v : Option JsonValue) : Handler :=
  fun _ _ log => (.ret v none, log ++ ["H"])

/-- A handler that returns the result `"ok"` with a nil error. -/
def echoOkHandler : Handler :=
  fun _ _ log => (.ret (some (.str "ok")) none, log)

/-- A handler that panics with the value `"boom"`. -/
def panicBoomHandler : Handler :=
  fun _ _ log => (.panic (.str "boom"), log)

/-! ## Theorems -/

/-- A concrete message carrying a non-empty method, an id, and a
result: the shape `types.go` classifies as a success response even
though it is not an `IsResponse`. -/
def msgMethodAndResult : Message :=
  ⟨"2.0", "notify", none, some (.num 1), some (.str "ok"), none⟩

/-- C6 counterexample: the claimed equivalence `IsSuccessResponse ⇔
IsResponse ∧ result present ∧ error absent` fails on a message with a
non-empty method, an id and a result: `IsSuccessResponse` is true but
`IsResponse` is false, because the code never examines the method
field. -/
theorem IsSuccessResponse_claim_counterexample :
    ¬ (msgMethodAndResult.IsSuccessResponse =
        (msgMethodAndResult.IsResponse &&
          msgMethodAndResult.result.isSome &&
          msgMethodAndResult.error.isNone)) := by
  decide

/-- C6 (amended): `IsSuccessResponse` is true exactly when the result
is present, the error is absent, and the id is present and non-null;
the method field is not examined.  The spec's direction `IsResponse ∧
result present ∧ error absent ⟹ IsSuccessResponse` does hold. -/
theorem IsSuccessResponse_characterization (m : Message) :
    m.IsSuccessResponse = (m.result.isSome && m.error.isNone && m.id.isSome) ∧
    ((m.IsResponse && m.result.isSome && m.error.isNone) = true →
      m.IsSuccessResponse = true) := by
  constructor
  · rfl
  · intro h
    simp only [Message.IsResponse, Message.IsSuccessResponse, Bool.and_eq_true] at h ⊢
    tauto

/-- C6 witness: the amended theorem applied to a plain success
response. -/
theorem IsSuccessResponse_characterization_witness :
    (Message.mk "2.0" "" none (some (.num 1)) (some (.str "ok")) none).IsSuccessResponse
      = true :=
  (IsSuccessResponse_characterization
    (Message.mk "2.0" "" none (some (.num 1)) (some (.str "ok")) none)).2 (by decide)

/-- C2: a line that is not valid JSON makes the loop write exactly one
ErrorResponse with code -32700, message "Parse error", id null, and
data carrying the parse-failure detail (the codec's wrapped unmarshal
error text), after which the loop continues with the remaining
events. -/
theorem Serve_parse_error_replies_and_continues (registry : HandlerRegistry)
    (middleware : List Middleware) (detail : String) (rest : List ReadEvent)
    (log : List String) :
    Serve registry middleware (ReadEvent.badJson detail :: rest) log =
      OutMsg.errorResponse
          ⟨"2.0", ⟨-32700, "Parse error",
              some (.str ("json unmarshal error: " ++ detail))⟩, none⟩
        :: Serve registry middleware rest log := by
  simp [Serve, handleNext, ReadJSON, sendError, NewParseError, NewError,
    ParseError, parseErrorMessage]

/-- C3: a request whose method has no registered handler produces
exactly one ErrorResponse with code -32601, message "Method not
found", data `{"method": <name>}`, carrying the request id; no handler
runs and the log is untouched. -/
theorem handleRequest_method_not_found (registry : HandlerRegistry)
    (middleware : List Middleware) (req : Request) (log : List String)
    (hreg : registry.Get req.method = none) :
    handleRequest registry middleware req log =
      ([OutMsg.errorResponse
          ⟨"2.0", ⟨-32601, "Method not found",
              some (.obj [("method", .str req.method)])⟩, req.id⟩],
        none, log) := by
  simp [handleRequest, hreg, sendError, NewMethodNotFoundError, NewError,
    MethodNotFound, methodNotFoundMessage]

/-- C3 witness: the spec's own scenario, `{"method":"nope","id":2}`
against an empty registry. -/
theorem handleRequest_method_not_found_witness :
    handleRequest [] [] ⟨"2.0", "nope", none, some (.num 2)⟩ [] =
      ([OutMsg.errorResponse
          ⟨"2.0", ⟨-32601, "Method not found",
              some (.obj [("method", .str "nope")])⟩, some (.num 2)⟩],
        none, []) :=
  handleRequest_method_not_found [] [] ⟨"2.0", "nope", none, some (.num 2)⟩ [] rfl

/-- C4, evaluated at the failing input: when the stream reaches EOF,
`ReadMessage` hands `handleNext` the *wrapped* error "read error:
EOF", which is not `==` the bare `io.EOF` sentinel; so the engine
sends a ParseError response for the transport fault and the loop
continues (a second EOF read yields a second ParseError) instead of
terminating silently as the spec requires. -/
theorem Serve_streamEOF_replies_and_loops :
    (handleNext [] [] ReadEvent.streamEOF []).2.1 = LoopSignal.cont ∧
    Serve [] [] [ReadEvent.streamEOF, ReadEvent.streamEOF] [] =
      [OutMsg.errorResponse
          ⟨"2.0", ⟨-32700, "Parse error", some (.str "read error: EOF")⟩, none⟩,
        OutMsg.errorResponse
          ⟨"2.0", ⟨-32700, "Parse error", some (.str "read error: EOF")⟩, none⟩] :=
  ⟨rfl, rfl⟩

/-- C1: a request whose method has a registered handler gets exactly
one reply carrying the request id: a Response with the (wrapped)
handler's result on success, an ErrorResponse with `ToRPCError` of the
handler's error on failure — the error passed through unchanged when
it is already an RPCError and otherwise wrapped as an InternalError
(code -32603) whose data is the error's description.  The final
conjunct: every message `handleRequest` writes carries the request
id. -/
theorem handleRequest_registered_one_reply (registry : HandlerRegistry)
    (middleware : List Middleware) (req : Request) (log : List String)
    (h : Handler) (hreg : registry.Get req.method = some h) :
    (∀ v log',
        applyMiddleware middleware h ⟨req.method, req.id⟩ req.params log
            = (.ret v none, log') →
        handleRequest registry middleware req log
            = ([sendResult req.id v], none, log')) ∧
    (∀ v e log',
        applyMiddleware middleware h ⟨req.method, req.id⟩ req.params log
            = (.ret v (some e), log') →
        handleRequest registry middleware req log
            = ([sendError req.id (ToRPCError e)], none, log')) ∧
    (∀ e, ToRPCError (GoError.rpc e) = e) ∧
    (∀ s, ToRPCError (GoError.generic s)
        = RPCError.mk (-32603) "Internal error" (some (.str s))) ∧
    (∀ out, out ∈ (handleRequest registry middleware req log).1 →
        out.id = req.id) := by
  refine ⟨?_, ?_, fun e => rfl, fun s => rfl, ?_⟩
  · intro v log' hv
    simp [handleRequest, hreg, hv]
  · intro v e log' hv
    simp [handleRequest, hreg, hv]
  · intro out hmem
    rcases hv : applyMiddleware middleware h ⟨req.method, req.id⟩ req.params log with
      ⟨res, log'⟩
    cases res with
    | ret r err =>
        cases err with
        | none =>
            simp only [handleRequest, hreg, hv] at hmem
            simp only [List.mem_singleton] at hmem
            subst hmem; rfl
        | some e =>
            simp only [handleRequest, hreg, hv] at hmem
            simp only [List.mem_singleton] at hmem
            subst hmem; rfl
    | panic p =>
        simp only [handleRequest, hreg, hv] at hmem
        simp at hmem

/-- C1 witness: a registered handler returning "ok" yields the single
success Response with the request id. -/
theorem handleRequest_registered_one_reply_witness :
    handleRequest [("echo", echoOkHandler)] []
        ⟨"2.0", "echo", none, some (.num 1)⟩ [] =
      ([sendResult (some (.num 1)) (some (.str "ok"))], none, []) :=
  (handleRequest_registered_one_reply [("echo", echoOkHandler)] []
    ⟨"2.0", "echo", none, some (.num 1)⟩ [] echoOkHandler rfl).1
    (some (.str "ok")) [] rfl

/-- Helper: running the chain of name-instrumented middleware over the
logging base handler appends, after any initial log, the before-logs
in list order, then `H`, then the after-logs in reverse order. -/
theorem chain_named_log (names : List String) (v : Option JsonValue)
    (ctx : HandlerContext) (params : Option JsonValue) (log : List String) :
    Chain (loggingBase v) (names.map namedMiddleware) ctx params log =
      (.ret v none,
        log ++ names.map (fun n => n ++ "-before") ++ ["H"]
            ++ names.reverse.map (fun n => n ++ "-after")) := by
  induction names generalizing log with
  | nil => simp [Chain, loggingBase]
  | cons n ns ih =>
      have hstep :
          Chain (loggingBase v) ((n :: ns).map namedMiddleware) ctx params log =
            namedMiddleware n (Chain (loggingBase v) (ns.map namedMiddleware))
              ctx params log := rfl
      rw [hstep, namedMiddleware, ih (log ++ [n ++ "-before"])]
      simp [List.append_assoc]

/-- C5: middleware composition order.  First conjunct: for any ordered
name list, the composed handler built by `Chain` runs the pre-logics
first-to-last, then the base handler, then the post-logics
last-to-first.  Second conjunct: the per-request wrapping loop of
`Connection.handleRequest` builds the same composition as `Chain`.
Third conjunct: the `[A, B]` scenario produces the log
`A-before, B-before, H, B-after, A-after`. -/
theorem middleware_order :
    (∀ (names : List String) (v : Option JsonValue) (ctx : HandlerContext)
        (params : Option JsonValue),
      Chain (loggingBase v) (names.map namedMiddleware) ctx params [] =
        (.ret v none,
          names.map (fun n => n ++ "-before") ++ ["H"]
            ++ names.reverse.map (fun n => n ++ "-after"))) ∧
    (∀ (h : Handler) (mws : List Middleware),
      applyMiddleware mws h = Chain h mws) ∧
    (Chain (loggingBase none) [namedMiddleware "A", namedMiddleware "B"]
        ⟨"m", none⟩ none []).2 =
      ["A-before", "B-before", "H", "B-after", "A-after"] := by
  refine ⟨?_, fun h mws => rfl, ?_⟩
  · intro names v ctx params
    simpa using chain_named_log names v ctx params []
  · have := chain_named_log ["A", "B"] none ⟨"m", none⟩ none []
    rw [show (["A", "B"].map namedMiddleware)
        = [namedMiddleware "A", namedMiddleware "B"] from rfl] at this
    rw [this]
    rfl

/-- C7: when the wrapped call panics, `RecoveryMiddleware` returns
normally with a nil result and an InternalError (code -32603) RPCError
whose data map holds the captured panic value under "panic" and the
method name under "method". -/
theorem RecoveryMiddleware_catches_panic (next : Handler)
    (ctx : HandlerContext) (params : Option JsonValue)
    (log log' : List String) (r : JsonValue)
    (hp : next ctx params log = (.panic r, log')) :
    RecoveryMiddleware next ctx params log =
      (.ret none (some (.rpc (NewInternalError
          (some (.obj [("panic", r), ("method", .str ctx.method)]))))), log') ∧
    (NewInternalError
        (some (.obj [("panic", r), ("method", .str ctx.method)]))).code = -32603 ∧
    (NewInternalError
        (some (.obj [("panic", r),
          ("method", .str ctx.method)]))).dataLookup "panic" = some r ∧
    (NewInternalError
        (some (.obj [("panic", r),
          ("method", .str ctx.method)]))).dataLookup "method"
      = some (.str ctx.method) := by
  refine ⟨?_, rfl, rfl, rfl⟩
  simp [RecoveryMiddleware, hp]

/-- C7 witness: a handler panicking with "boom" under
`RecoveryMiddleware` yields a nil result and the InternalError whose
data holds `panic == "boom"`. -/
theorem RecoveryMiddleware_catches_panic_witness :
    RecoveryMiddleware panicBoomHandler ⟨"m", none⟩ none [] =
      (.ret none (some (.rpc (NewInternalError
          (some (.obj [("panic", .str "boom"), ("method", .str "m")]))))), []) :=
  (RecoveryMiddleware_catches_panic panicBoomHandler ⟨"m", none⟩ none [] []
    (.str "boom") rfl).1

/-- Helper: `takeWhile (· ≠ 10)` of a newline-free prefix followed by
a newline is the prefix itself. -/
theorem takeWhile_append_newline (line rest : List UInt8)
    (hnl : (10 : UInt8) ∉ line) :
    (line ++ 10 :: rest).takeWhile (fun b => b ≠ 10) = line := by
  induction line with
  | nil => simp [List.takeWhile_cons]
  | cons x t ih =>
      simp only [List.mem_cons, not_or] at hnl
      have hx : ¬ x = 10 := fun h => hnl.1 h.symm
      rw [List.cons_append, List.takeWhile_cons, if_pos (by simp [hx]), ih hnl.2]

/-- Helper: `dropWhile (· ≠ 10)` of a newline-free prefix followed by
a newline starts at the newline. -/
theorem dropWhile_append_newline (line rest : List UInt8)
    (hnl : (10 : UInt8) ∉ line) :
    (line ++ 10 :: rest).dropWhile (fun b => b ≠ 10) = 10 :: rest := by
  induction line with
  | nil => simp [List.dropWhile_cons]
  | cons x t ih =>
      simp only [List.mem_cons, not_or] at hnl
      have hx : ¬ x = 10 := fun h => hnl.1 h.symm
      rw [List.cons_append, List.dropWhile_cons, if_pos (by simp [hx]), ih hnl.2]

/-- Helper: on a newline-free stream, `dropWhile (· ≠ 10)` consumes
everything. -/
theorem dropWhile_no_newline (line : List UInt8)
    (hnl : (10 : UInt8) ∉ line) :
    line.dropWhile (fun b => b ≠ 10) = [] := by
  induction line with
  | nil => rfl
  | cons x t ih =>
      simp only [List.mem_cons, not_or] at hnl
      have hx : ¬ x = 10 := fun h => hnl.1 h.symm
      rw [List.dropWhile_cons, if_pos (by simp [hx]), ih hnl.2]

/-- Helper: one unfolding of `ReadMessage` on a stream beginning with
a complete line: strip CR, skip if empty, else deliver. -/
theorem ReadMessage_complete_line (line rest : List UInt8)
    (hnl : (10 : UInt8) ∉ line) :
    ReadMessage (line ++ 10 :: rest) =
      if stripCR line = [] then ReadMessage rest
      else .ok (stripCR line, rest) := by
  rw [ReadMessage]
  split
  · next hrest =>
      rw [dropWhile_append_newline line rest hnl] at hrest
      exact absurd hrest (List.cons_ne_nil _ _)
  · next b rest' hrest =>
      rw [dropWhile_append_newline line rest hnl] at hrest
      obtain ⟨hb, hr⟩ := List.cons.inj hrest
      subst hr
      rw [takeWhile_append_newline line rest hnl]

/-- Helper: `ReadMessage` on a newline-free stream returns the
buffered partial data, or the wrapped EOF error when nothing is
buffered. -/
theorem ReadMessage_no_newline (line : List UInt8)
    (hnl : (10 : UInt8) ∉ line) :
    ReadMessage line =
      if line ≠ [] then .ok (line, []) else .error "read error: EOF" := by
  rw [ReadMessage]
  split
  · rfl
  · next b rest' hrest =>
      rw [dropWhile_no_newline line hnl] at hrest
      exact absurd hrest.symm (List.cons_ne_nil _ _)

/-- C8: line framing.  For a newline-free `line`: (1) if non-empty
after CR-stripping, the bytes before the `'\n'` are returned with one
trailing `'\r'` removed and the terminator excluded; (2) if empty
after stripping, the line is skipped and reading continues with the
rest of the stream; (3) at end-of-stream, non-empty buffered partial
data is returned as a final message; and (4) an empty stream is a read
failure, not an empty message. -/
theorem ReadMessage_framing (line rest : List UInt8)
    (hnl : (10 : UInt8) ∉ line) :
    (stripCR line ≠ [] →
      ReadMessage (line ++ 10 :: rest) = .ok (stripCR line, rest)) ∧
    (stripCR line = [] →
      ReadMessage (line ++ 10 :: rest) = ReadMessage rest) ∧
    (line ≠ [] → ReadMessage line = .ok (line, [])) ∧
    ReadMessage [] = .error "read error: EOF" := by
  refine ⟨?_, ?_, ?_, ?_⟩
  · intro h
    rw [ReadMessage_complete_line line rest hnl, if_neg h]
  · intro h
    rw [ReadMessage_complete_line line rest hnl, if_pos h]
  · intro h
    rw [ReadMessage_no_newline line hnl, if_pos h]
  · rw [ReadMessage_no_newline [] (by simp)]
    simp

/-- C8 witness: the stream `"hi\r\njk"` yields the message `"hi"`
(CR stripped) with `"jk"` unconsumed, and that remainder — partial
data with no terminator — is itself returned at end-of-stream. -/
theorem ReadMessage_framing_witness :
    ReadMessage ([104, 105, 13] ++ 10 :: [106, 107]) = .ok ([104, 105], [106, 107]) ∧
    ReadMessage [106, 107] = .ok ([106, 107], []) :=
  ⟨(ReadMessage_framing [104, 105, 13] [106, 107] (by decide)).1 (by decide),
   (ReadMessage_framing [106, 107] [] (by decide)).2.2.1 (by decide)⟩

/-- Helper: the broadcast fold from any starting count adds the number
of members whose send succeeds. -/
theorem broadcast_foldl_eq (method : String) (params : Option JsonValue)
    (conns : List NotificationManager) (n : Nat) :
    conns.foldl
        (fun count nm =>
          match nm.Send method params with
          | .ok _ => count + 1
          | .error _ => count)
        n =
      n + conns.countP (fun nm => (nm.Send method params).isOk) := by
  induction conns generalizing n with
  | nil => simp
  | cons c cs ih =>
      rcases hs : c.Send method params with e | v
      · rw [List.foldl_cons]
        have hstep :
            (match c.Send method params with
              | Except.ok _ => n + 1
              | Except.error _ => n) = n := by rw [hs]
        rw [hstep, ih, List.countP_cons]
        have hpred : ((c.Send method params).isOk : Bool) = false := by
          rw [hs]; rfl
        rw [hpred]
        simp
      · rw [List.foldl_cons]
        have hstep :
            (match c.Send method params with
              | Except.ok _ => n + 1
              | Except.error _ => n) = n + 1 := by rw [hs]
        rw [hstep, ih, List.countP_cons]
        have hpred : ((c.Send method params).isOk : Bool) = true := by
          rw [hs]; rfl
        rw [hpred]
        simp
        omega

/-- C9: `Broadcast` attempts the send on every member and returns the
number of successes: (1) the count is exactly the number of members
whose `Send` succeeds; (2) prepending a member adds its own success
bit and leaves the rest of the broadcast untouched — a failing member
does not abort delivery to the others; (3) when every member's send
succeeds the count is the membership size. -/
theorem Broadcast_counts_successes (conns : List NotificationManager)
    (method : String) (params : Option JsonValue) :
    Broadcast conns method params =
      conns.countP (fun nm => (nm.Send method params).isOk) ∧
    (∀ (c : NotificationManager) (cs : List NotificationManager),
      Broadcast (c :: cs) method params =
        (if (c.Send method params).isOk then 1 else 0)
          + Broadcast cs method params) ∧
    ((∀ nm ∈ conns, (nm.Send method params).isOk = true) →
      Broadcast conns method params = conns.length) := by
  refine ⟨?_, ?_, ?_⟩
  · simpa using broadcast_foldl_eq method params conns 0
  · intro c cs
    rcases hs : c.Send method params with e | v <;>
      simp [Broadcast, List.foldl_cons, hs, broadcast_foldl_eq method params cs,
        Except.isOk, Except.toBool]
  · intro hall
    have h1 : Broadcast conns method params =
        conns.countP (fun nm => (nm.Send method params).isOk) := by
      simpa using broadcast_foldl_eq method params conns 0
    rw [h1, List.countP_eq_length]
    exact hall

/-- C9 witness: three open connections with working streams: the
broadcast count is 3. -/
theorem Broadcast_counts_successes_witness :
    Broadcast [⟨false, true⟩, ⟨false, true⟩, ⟨false, true⟩] "evt" none = 3 :=
  (Broadcast_counts_successes [⟨false, true⟩, ⟨false, true⟩, ⟨false, true⟩]
    "evt" none).2.2 (by decide)

/-- Helper: every message `handleRequest` writes is built by
`sendResult` or `sendError`, so it carries the version string "2.0". -/
theorem handleRequest_jsonrpc (registry : HandlerRegistry)
    (middleware : List Middleware) (req : Request) (log : List String) :
    ∀ out ∈ (handleRequest registry middleware req log).1,
      out.jsonrpc = "2.0" := by
  intro out hmem
  rcases hGet : registry.Get req.method with _ | h
  · simp only [handleRequest, hGet, List.mem_singleton] at hmem
    subst hmem; rfl
  · rcases hv : applyMiddleware middleware h ⟨req.method, req.id⟩ req.params log with
      ⟨res, log'⟩
    cases res with
    | ret r err =>
        cases err with
        | none =>
            simp only [handleRequest, hGet, hv, List.mem_singleton] at hmem
            subst hmem; rfl
        | some e =>
            simp only [handleRequest, hGet, hv, List.mem_singleton] at hmem
            subst hmem; rfl
    | panic p =>
        simp only [handleRequest, hGet, hv] at hmem
        simp at hmem

/-- Helper: every message `handleNext` writes carries "2.0". -/
theorem handleNext_jsonrpc (registry : HandlerRegistry)
    (middleware : List Middleware) (ev : ReadEvent) (log : List String) :
    ∀ out ∈ (handleNext registry middleware ev log).1,
      out.jsonrpc = "2.0" := by
  intro out hmem
  cases ev with
  | streamEOF =>
      simp only [handleNext, ReadJSON, List.mem_singleton] at hmem
      subst hmem; rfl
  | badJson detail =>
      simp only [handleNext, ReadJSON, List.mem_singleton] at hmem
      subst hmem; rfl
  | goodMsg m =>
      by_cases hreq : m.IsRequest
      · rcases hto : m.ToRequest with e | req
        · simp only [Message.ToRequest, if_pos hreq] at hto
          exact Except.noConfusion hto
        · rcases hhr : handleRequest registry middleware req log with ⟨outs, p, log'⟩
          have houts := handleRequest_jsonrpc registry middleware req log
          rw [hhr] at houts
          cases p with
          | none =>
              simp only [handleNext, ReadJSON, hreq, if_pos, hto, hhr] at hmem
              exact houts out hmem
          | some pv =>
              simp only [handleNext, ReadJSON, hreq, if_pos, hto, hhr] at hmem
              exact houts out hmem
      · by_cases hnot : m.IsNotification
        · simp only [handleNext, ReadJSON, hreq, hnot] at hmem
          simp at hmem
        · simp only [handleNext, ReadJSON, hreq, hnot, List.mem_singleton,
            if_false, Bool.false_eq_true] at hmem
          subst hmem; rfl

/-- C10: every Response and ErrorResponse the read loop writes, and
every Notification `NotificationManager.Send` writes, carries the
literal version string "2.0" — whatever version field (if any) the
inbound messages carried. -/
theorem written_messages_version_two :
    (∀ (registry : HandlerRegistry) (middleware : List Middleware)
        (events : List ReadEvent) (log : List String) (out : OutMsg),
      out ∈ Serve registry middleware events log → out.jsonrpc = "2.0") ∧
    (∀ (nm : NotificationManager) (method : String) (params : Option JsonValue)
        (n : Notification),
      nm.Send method params = .ok n → n.jsonrpc = "2.0") := by
  constructor
  · intro registry middleware events
    induction events with
    | nil => intro log out hmem; simp [Serve] at hmem
    | cons ev rest ih =>
        intro log out hmem
        have hn := handleNext_jsonrpc registry middleware ev log
        rcases hh : handleNext registry middleware ev log with ⟨outs, sig, log'⟩
        rw [hh] at hn
        cases sig with
        | exitEOF =>
            simp only [Serve, hh] at hmem
            exact hn out hmem
        | crash v =>
            simp only [Serve, hh] at hmem
            exact hn out hmem
        | cont =>
            simp only [Serve, hh, List.mem_append] at hmem
            rcases hmem with hmem | hmem
            · exact hn out hmem
            · exact ih log' out hmem
  · intro nm method params n hsend
    unfold NotificationManager.Send at hsend
    by_cases hc : nm.closed
    · simp [hc] at hsend
    · by_cases hw : nm.writeOk
      · simp only [hc, hw, if_false, if_true, Bool.false_eq_true] at hsend
        cases hsend
        rfl
      · simp [hc, hw] at hsend

/-- C10 witness: a parse-error reply and a sent notification, both
carrying "2.0". -/
theorem written_messages_version_two_witness :
    (OutMsg.errorResponse
        ⟨"2.0", ⟨-32700, "Parse error",
            some (.str "json unmarshal error: x")⟩, none⟩).jsonrpc = "2.0" ∧
    (Notification.mk "2.0" "evt" none).jsonrpc = "2.0" :=
  ⟨written_messages_version_two.1 [] [] [ReadEvent.badJson "x"] [] _
      (by simp [Serve, handleNext, ReadJSON, sendError, NewParseError, NewError,
        ParseError, parseErrorMessage]),
    written_messages_version_two.2 ⟨false, true⟩ "evt" none _ rfl⟩

end JsonRpcIpc
